import Mathlib

/-!
Verification development for the agent-council deliberation pipeline.

The repository ships type declarations (types.ts), the REPL (repl.ts) and
unit tests; the implementation modules agents.ts, pipeline.ts and prompts.ts
are not present in the source tree, so their operations are modelled here
from the natural-language specification (spec.md) and checked against the
behaviours pinned by the shipped unit tests.  Machine text is modelled as
Lean strings processed at the character level so that every definition is
executable and kernel-reducible.
-/

/-- Terminal and transient statuses of one agent invocation, from types.ts
(AgentStatus). -/
inductive AgentStatus
  | pending
  | running
  | completed
  | error
  | killed
  | timeout
deriving DecidableEq, Repr

/-- Agent specification, from types.ts (AgentConfig). -/
structure AgentConfig where
  name : String
  command : List String
  promptViaStdin : Bool
deriving DecidableEq, Repr

/-- Per-invocation run record, from types.ts (AgentState).  The OS process
handle is abstracted away; the timeout handle is modelled as an abstract
option. -/
structure AgentState where
  config : AgentConfig
  status : AgentStatus
  stdout : List String
  stderr : List String
  startTime : Option Nat
  endTime : Option Nat
  exitCode : Option Int
  errorMessage : Option String
  timeoutHandle : Option Unit
deriving DecidableEq, Repr

/-- Stage-1 extraction result, from types.ts (Stage1Result). -/
structure Stage1Result where
  agent : String
  response : String
deriving DecidableEq, Repr

/-- Stage-2 ranking result, from types.ts (Stage2Result). -/
structure Stage2Result where
  agent : String
  rankingRaw : String
  parsedRanking : List String
deriving DecidableEq, Repr

/-- Stage-3 synthesis result, from types.ts (Stage3Result). -/
structure Stage3Result where
  agent : String
  response : String
deriving DecidableEq, Repr

/-- Aggregate consensus entry, from types.ts (aggregate entries carry agent
name, average rank and count of contributing raters).  The average is an
exact rational, the shallow embedding of the JavaScript number computed by
the aggregation engine. -/
structure AggregateRank where
  agent : String
  averageRank : ℚ
  rankingsCount : Nat
deriving DecidableEq

/- ===================== character-level text utilities ===================== -/

/-- Whitespace test used by trimming, covering the blanks relevant to the
prompts in the tests. -/
def isWsChar (c : Char) : Bool :=
  c == ' ' || c == '\t' || c == '\n' || c == '\r'

/-- Trim whitespace from both ends of a character list (the model of
String.prototype.trim). -/
def trimChars (l : List Char) : List Char :=
  ((l.dropWhile isWsChar).reverse.dropWhile isWsChar).reverse

/-- Split a character list at newline characters; auxiliary accumulator form,
structural so that the kernel can evaluate it. -/
def splitLinesAux (cur : List Char) : List Char → List (List Char)
  | [] => [cur.reverse]
  | c :: cs =>
    if c == '\n' then cur.reverse :: splitLinesAux [] cs
    else splitLinesAux (c :: cur) cs

/-- Split a character list into its lines. -/
def splitLines (l : List Char) : List (List Char) :=
  splitLinesAux [] l

/-- The fixed marker phrase that introduces the final ranking, from the
ranking prompt contract in the spec and the tests. -/
def markerChars : List Char := "FINAL RANKING:".data

/-- Return the characters strictly after the first occurrence of the marker
phrase, or none when the marker does not occur. -/
def afterMarker : List Char → Option (List Char)
  | [] => if markerChars.isEmpty then some [] else none
  | c :: cs =>
    if markerChars.isPrefixOf (c :: cs) then some ((c :: cs).drop markerChars.length)
    else afterMarker cs

/-- Does the trimmed line start with one or more digits followed by a
period, i.e. is it an entry of a numbered list? -/
def isNumberedLine (line : List Char) : Bool :=
  let t := trimChars line
  !(t.takeWhile Char.isDigit).isEmpty && ((t.dropWhile Char.isDigit).head? == some '.')

/-- The anchor text standing for the upper-case label letter d, i.e. the
string Response d. -/
def anchorString (d : Char) : String :=
  String.mk ['R', 'e', 's', 'p', 'o', 'n', 's', 'e', ' ', d]

/-- If the character list starts with an anchor occurrence (the word
Response, a space, and an upper-case letter), return that letter. -/
def anchorHead : List Char → Option Char
  | 'R' :: 'e' :: 's' :: 'p' :: 'o' :: 'n' :: 's' :: 'e' :: ' ' :: d :: _ =>
    if d.isUpper then some d else none
  | _ => none

/-- All anchor occurrences in a character list, in first-seen order
(overlapping starts are impossible for this pattern). -/
def findAnchors : List Char → List String
  | [] => []
  | c :: cs =>
    match anchorHead (c :: cs) with
    | some d => anchorString d :: findAnchors cs
    | none => findAnchors cs

/-- First anchor text found within one line, if any. -/
def firstAnchorIn (line : List Char) : Option String :=
  (findAnchors line).head?

/-- Keep only the first occurrence of each element; accumulator form, seen
elements carried along, structural recursion. -/
def dedupFirstAux (seen : List String) : List String → List String
  | [] => []
  | x :: xs =>
    if x ∈ seen then dedupFirstAux seen xs
    else x :: dedupFirstAux (x :: seen) xs

/-- Deduplicate a label list keeping first occurrences, per the Stage2Result
data-model constraint in the spec. -/
def dedupFirst (l : List String) : List String :=
  dedupFirstAux [] l

/-- Tier 1 of the parse chain: anchors of the numbered lines following the
marker, in order. -/
def numberedTier (tail : List Char) : List String :=
  ((splitLines tail).filter isNumberedLine).filterMap firstAnchorIn

/-- Tier 2 of the parse chain: anchors of the unnumbered lines following the
marker, in order. -/
def plainTier (tail : List Char) : List String :=
  ((splitLines tail).filter (fun l => !isNumberedLine l)).filterMap firstAnchorIn

/-- Tier 3 of the parse chain: every anchor occurrence anywhere in the text,
in first-seen order. -/
def wholeTextTier (cs : List Char) : List String :=
  findAnchors cs

/-- Modelled from the spec: prompts.ts (parseRankingFromText) is absent from
the source tree.  Parsing proceeds in priority order — a numbered list after
the marker phrase, then unnumbered lines after the marker, then a whole-text
scan for anchor occurrences — and an empty ordered sequence is returned when
nothing matches.  The result is deduplicated by first occurrence per the
Stage2Result data-model constraint. -/
def parseRankingFromText (text : String) : List String :=
  match afterMarker text.data with
  | some tail =>
    if !(numberedTier tail).isEmpty then dedupFirst (numberedTier tail)
    else if !(plainTier tail).isEmpty then dedupFirst (plainTier tail)
    else dedupFirst (wholeTextTier text.data)
  | none => dedupFirst (wholeTextTier text.data)

/- ===================== aggregation engine ===================== -/

/-- One-based position of the first occurrence of a label in a parsed
ranking list; only meaningful when the label occurs. -/
def rankPosition (label : String) : List String → Nat
  | [] => 1
  | x :: xs => if x = label then 1 else rankPosition label xs + 1

/-- The raters whose parsed ranking mentions the given label. -/
def ratersFor (label : String) (stage2 : List Stage2Result) : List Stage2Result :=
  stage2.filter (fun r => decide (label ∈ r.parsedRanking))

/-- Sum of the one-based positions of a label over the raters that mention
it. -/
def sumPositions (label : String) (stage2 : List Stage2Result) : Nat :=
  ((ratersFor label stage2).map (fun r => rankPosition label r.parsedRanking)).sum

/-- The aggregate entry for one label-to-agent pair: the average of its
one-based positions over the raters that mention the label, and the count of
those raters. -/
def aggregateFor (label : String) (agent : String) (stage2 : List Stage2Result) : AggregateRank :=
  { agent := agent
    averageRank := (sumPositions label stage2 : ℚ) / ((ratersFor label stage2).length : ℚ)
    rankingsCount := (ratersFor label stage2).length }

/-- The unsorted aggregate entries, one per label-map pair whose label is
mentioned by at least one rater, in original label-map order. -/
def aggregateEntries (stage2 : List Stage2Result) (labels : List (String × String)) :
    List AggregateRank :=
  (labels.filter (fun p => decide (∃ r ∈ stage2, p.1 ∈ r.parsedRanking))).map
    (fun p => aggregateFor p.1 p.2 stage2)

/-- Ordering of aggregate entries by average rank, ascending. -/
def aggLe (x y : AggregateRank) : Prop :=
  x.averageRank ≤ y.averageRank

instance : DecidableRel aggLe :=
  fun x y => inferInstanceAs (Decidable (x.averageRank ≤ y.averageRank))

instance : IsTotal AggregateRank aggLe :=
  ⟨fun x y => le_total x.averageRank y.averageRank⟩

instance : IsTrans AggregateRank aggLe :=
  ⟨fun _ _ _ h₁ h₂ => le_trans h₁ h₂⟩

/-- Modelled from the spec: pipeline.ts (calculateAggregateRankings) is
absent from the source tree.  Labels mentioned by no rater are excluded;
each remaining label contributes one entry with the average of its one-based
positions over the raters that mention it and the count of those raters; the
entries are sorted ascending by average with a stable sort, ties keeping the
original label-map order. -/
def calculateAggregateRankings (stage2 : List Stage2Result) (labels : List (String × String)) :
    List AggregateRank :=
  (aggregateEntries stage2 labels).insertionSort aggLe

/- ===================== stage extraction ===================== -/

/-- Concatenated output chunks of one run record, as characters. -/
def outputChars (s : AgentState) : List Char :=
  (s.stdout.map String.data).flatten

/-- Modelled from the spec: pipeline.ts (extractStage1) is absent from the
source tree.  Only run records with status completed contribute a
Stage1Result, in input order; the response is the concatenation of the
stdout chunks, trimmed. -/
def extractStage1 (states : List AgentState) : List Stage1Result :=
  (states.filter (fun s => decide (s.status = AgentStatus.completed))).map
    (fun s => { agent := s.config.name, response := String.mk (trimChars (outputChars s)) })

/-- Modelled from the spec: pipeline.ts (extractStage2) is absent from the
source tree.  Only completed run records contribute; the raw ranking text is
preserved and the parsed ordered label list is produced by the ranking
parser. -/
def extractStage2 (states : List AgentState) : List Stage2Result :=
  (states.filter (fun s => decide (s.status = AgentStatus.completed))).map
    (fun s =>
      { agent := s.config.name
        rankingRaw := String.mk (outputChars s)
        parsedRanking := parseRankingFromText (String.mk (outputChars s)) })

/-- Modelled from the spec: pipeline.ts (abortIfNoStage1) is absent from the
source tree.  The pipeline aborts with the no-usable-responses outcome
exactly when the Stage1 result list is empty. -/
def abortIfNoStage1 (stage1 : List Stage1Result) : Bool :=
  stage1.isEmpty

/- ===================== process runner ===================== -/

/-- Abstract behaviour of one external process: either it cannot be started
at all, or it runs, emitting timed output chunks, and exits with a code
after a duration. -/
structure ProcRun where
  outChunks : List (Nat × String)
  errChunks : List (Nat × String)
  duration : Nat
  exitCode : Int
deriving DecidableEq, Repr

/-- Behaviour of the spawned process, the environment of one Process Runner
invocation. -/
inductive ProcBehavior
  | spawnFail (msg : String)
  | runs (r : ProcRun)
deriving DecidableEq, Repr

/-- The timeout actually enforced: a configured value of zero is treated the
same as an absent timeout (no timeout handle is installed). -/
def effectiveTimeout : Option Nat → Option Nat
  | none => none
  | some t => if t = 0 then none else some t

/-- Chunks that arrived up to the given instant. -/
def chunksBefore (t : Nat) (chunks : List (Nat × String)) : List String :=
  (chunks.filter (fun c => decide (c.1 ≤ t))).map (fun c => c.2)

/-- Modelled from the spec: agents.ts is absent from the source tree.  The
process-close handler classifies the exit code — zero becomes completed,
non-zero becomes error with the exit code recorded — but must not overwrite
a status of killed set by an external cancel request. -/
def onProcClose (s : AgentState) (code : Int) (endT : Nat) : AgentState :=
  if s.status = AgentStatus.killed then s
  else
    { s with
      status := if code = 0 then AgentStatus.completed else AgentStatus.error
      exitCode := some code
      endTime := some endT }

/-- Modelled from the spec: agents.ts (external cancellation) is absent from
the source tree.  Cancellation sets status killed. -/
def cancelAgent (s : AgentState) : AgentState :=
  { s with status := AgentStatus.killed }

/-- Modelled from the spec: agents.ts (callAgent) is absent from the source
tree.  Given the spec, the prompt, an optional timeout in milliseconds and
the behaviour of the spawned process, produce the terminal run record: a
spawn failure yields status error with an error message and no exit code; a
configured timeout elapsing before exit forcibly terminates the process and
yields status timeout, retaining the output captured up to that point;
otherwise the exit code is classified by the close handler.  A timeout of
zero is treated as no timeout, matching the unit tests. -/
def callAgent (state : AgentState) (_prompt : String) (timeoutMs : Option Nat)
    (b : ProcBehavior) : AgentState :=
  match b with
  | ProcBehavior.spawnFail msg =>
    { state with
      status := AgentStatus.error
      errorMessage := some msg
      exitCode := none
      startTime := some 0
      endTime := some 0
      timeoutHandle := none }
  | ProcBehavior.runs r =>
    let handle := (effectiveTimeout timeoutMs).map (fun _ => ())
    match effectiveTimeout timeoutMs with
    | some t =>
      if r.duration ≤ t then
        onProcClose
          { state with
            status := AgentStatus.running
            stdout := state.stdout ++ r.outChunks.map (fun c => c.2)
            stderr := state.stderr ++ r.errChunks.map (fun c => c.2)
            startTime := some 0
            timeoutHandle := handle }
          r.exitCode r.duration
      else
        { state with
          status := AgentStatus.timeout
          stdout := state.stdout ++ chunksBefore t r.outChunks
          stderr := state.stderr ++ chunksBefore t r.errChunks
          startTime := some 0
          endTime := some t
          timeoutHandle := handle }
    | none =>
      onProcClose
        { state with
          status := AgentStatus.running
          stdout := state.stdout ++ r.outChunks.map (fun c => c.2)
          stderr := state.stderr ++ r.errChunks.map (fun c => c.2)
          startTime := some 0
          timeoutHandle := handle }
        r.exitCode r.duration

/-- Does a configured timeout elapse before the process exits? -/
def timeoutFires (timeoutMs : Option Nat) (r : ProcRun) : Prop :=
  ∃ t, effectiveTimeout timeoutMs = some t ∧ t < r.duration

instance (timeoutMs : Option Nat) (r : ProcRun) : Decidable (timeoutFires timeoutMs r) := by
  unfold timeoutFires
  cases effectiveTimeout timeoutMs with
  | none => exact Decidable.isFalse (by simp)
  | some t => exact decidable_of_iff (t < r.duration) (by simp)

/-- Events that may reach a run record after launch: an external cancel
request and the process-close callback, in any interleaving. -/
inductive RunEvent
  | cancel
  | procClose (code : Int) (endT : Nat)
deriving DecidableEq, Repr

/-- Apply one event to the run record. -/
def applyRunEvent (s : AgentState) : RunEvent → AgentState
  | RunEvent.cancel => cancelAgent s
  | RunEvent.procClose code endT => onProcClose s code endT

/-- Apply a sequence of events to the run record. -/
def runEvents (s : AgentState) (evs : List RunEvent) : AgentState :=
  evs.foldl applyRunEvent s

/- ===================== pipeline ===================== -/

/-- Pipeline operating mode, from types.ts (PipelineMode). -/
inductive PipelineMode
  | compete
  | merge
deriving DecidableEq, Repr

/-- Per-stage agent set, from types.ts (StageAgentConfig); stage 1
additionally carries an optional prompt override. -/
structure StageAgentConfig where
  agents : List AgentConfig
deriving DecidableEq, Repr

/-- Stage-3 configuration: the chairman and the optional fallback chairman,
from types.ts. -/
structure Stage3Config where
  chairman : AgentConfig
  fallback : Option AgentConfig
deriving DecidableEq, Repr

/-- Pipeline configuration, from types.ts (EnhancedPipelineConfig), with the
mode already resolved to its default of compete when unspecified. -/
structure EnhancedPipelineConfig where
  mode : PipelineMode
  stage1 : StageAgentConfig
  stage1Prompt : Option String
  stage2 : Option StageAgentConfig
  stage3 : Stage3Config
  timeoutMs : Option Nat
deriving DecidableEq

/-- Pipeline result, from the library surface pinned by the merge-mode
tests: mode, Stage1 results, Stage2 results or null, aggregate ranking or
null, and the Stage3 synthesis. -/
structure PipelineResult where
  mode : PipelineMode
  stage1 : List Stage1Result
  stage2 : Option (List Stage2Result)
  aggregate : Option (List AggregateRank)
  stage3 : Stage3Result
deriving DecidableEq

deriving instance DecidableEq for Except

/-- Observable outcome of one pipeline run: the returned value (a
configuration or chairman error, the no-usable-responses outcome none, or a
result), the names of the agent processes spawned in order, and the
stage-boundary callbacks fired in order. -/
structure PipelineOutcome where
  outcome : Except String (Option PipelineResult)
  spawned : List String
  callbacksFired : List String
deriving DecidableEq

/-- Behaviour environment for a pipeline run: stage number and agent name
determine the behaviour of the spawned process. -/
def PipelineEnv : Type := Nat → String → ProcBehavior

/-- A fresh run record for one agent invocation. -/
def initialState (a : AgentConfig) : AgentState :=
  { config := a
    status := AgentStatus.pending
    stdout := []
    stderr := []
    startTime := none
    endTime := none
    exitCode := none
    errorMessage := none
    timeoutHandle := none }

/-- Sequential letter label for the i-th live Stage1 result. -/
def labelFor (i : Nat) : String :=
  anchorString (Char.ofNat (65 + i))

/-- Modelled from the spec: the label map is built once from the live Stage1
result list, assigning labels in a fixed deterministic order. -/
def buildLabelMap (stage1 : List Stage1Result) : List (String × String) :=
  stage1.enum.map (fun p => (labelFor p.1, p.2.agent))

/-- The configuration error surfaced when compete mode lacks a stage2
configuration (the message mentions stage2, as the tests require). -/
def competeConfigError : String := "compete mode requires stage2 configuration"

/-- Chairman error propagated when the primary chairman and, when
configured, the single fallback attempt both fail. -/
def chairmanFailedError : String := "chairman failed"

/-- The Stage1 run records of one pipeline run: every responder is invoked
with the stage-1 prompt (the question unless overridden). -/
def stage1States (cfg : EnhancedPipelineConfig) (question : String) (env : PipelineEnv) :
    List AgentState :=
  cfg.stage1.agents.map
    (fun a => callAgent (initialState a) (cfg.stage1Prompt.getD question) cfg.timeoutMs (env 1 a.name))

/-- The Stage2 run records: every evaluator is invoked with the ranking
prompt (abstracted here to the question; its content is irrelevant to the
modelled claims because the response behaviour comes from the environment). -/
def stage2States (cfg : EnhancedPipelineConfig) (s2cfg : StageAgentConfig) (question : String)
    (env : PipelineEnv) : List AgentState :=
  s2cfg.agents.map
    (fun a => callAgent (initialState a) question cfg.timeoutMs (env 2 a.name))

/-- Modelled from the spec: the chairman invocation with the single
fallback-chairman attempt.  Returns the Stage3 result, or propagates a
chairman error; also reports the chairman process names spawned. -/
def runChairman (cfg : EnhancedPipelineConfig) (question : String) (env : PipelineEnv) :
    Except String Stage3Result × List String :=
  let st := callAgent (initialState cfg.stage3.chairman) question cfg.timeoutMs
    (env 3 cfg.stage3.chairman.name)
  if st.status = AgentStatus.completed then
    (Except.ok { agent := cfg.stage3.chairman.name, response := String.mk (trimChars (outputChars st)) },
      [cfg.stage3.chairman.name])
  else
    match cfg.stage3.fallback with
    | some fb =>
      let st2 := callAgent (initialState fb) question cfg.timeoutMs (env 3 fb.name)
      if st2.status = AgentStatus.completed then
        (Except.ok { agent := fb.name, response := String.mk (trimChars (outputChars st2)) },
          [cfg.stage3.chairman.name, fb.name])
      else (Except.error chairmanFailedError, [cfg.stage3.chairman.name, fb.name])
    | none => (Except.error chairmanFailedError, [cfg.stage3.chairman.name])

/-- Modelled from the spec: pipeline.ts (runEnhancedPipeline) is absent from
the source tree.  Compete mode without a stage2 configuration is a
configuration error surfaced before any process is spawned.  Otherwise the
responders run, only completed records contribute Stage1 results, and an
empty Stage1 set aborts with the no-usable-responses outcome (ok none).  In
merge mode Stage2 is skipped entirely — no Stage2 callback, null Stage2 and
aggregate results; in compete mode the evaluators run, their rankings are
parsed and aggregated, and the Stage2 callback fires.  The chairman then
produces the Stage3 result, with errors propagated. -/
def runEnhancedPipeline (cfg : EnhancedPipelineConfig) (question : String) (env : PipelineEnv) :
    PipelineOutcome :=
  if cfg.mode = PipelineMode.compete ∧ cfg.stage2 = none then
    { outcome := Except.error competeConfigError, spawned := [], callbacksFired := [] }
  else
    let states1 := stage1States cfg question env
    let s1 := extractStage1 states1
    let spawned1 := cfg.stage1.agents.map (fun a => a.name)
    if abortIfNoStage1 s1 then
      { outcome := Except.ok none, spawned := spawned1, callbacksFired := ["stage1"] }
    else
      match cfg.mode, cfg.stage2 with
      | PipelineMode.merge, _ =>
        let ch := runChairman cfg question env
        match ch.1 with
        | Except.ok r3 =>
          { outcome := Except.ok (some
              { mode := PipelineMode.merge, stage1 := s1, stage2 := none, aggregate := none
                stage3 := r3 })
            spawned := spawned1 ++ ch.2
            callbacksFired := ["stage1", "stage3"] }
        | Except.error e =>
          { outcome := Except.error e
            spawned := spawned1 ++ ch.2
            callbacksFired := ["stage1"] }
      | PipelineMode.compete, some s2cfg =>
        let states2 := stage2States cfg s2cfg question env
        let st2 := extractStage2 states2
        let agg := calculateAggregateRankings st2 (buildLabelMap s1)
        let spawned2 := spawned1 ++ s2cfg.agents.map (fun a => a.name)
        let ch := runChairman cfg question env
        match ch.1 with
        | Except.ok r3 =>
          { outcome := Except.ok (some
              { mode := PipelineMode.compete, stage1 := s1, stage2 := some st2
                aggregate := some agg, stage3 := r3 })
            spawned := spawned2 ++ ch.2
            callbacksFired := ["stage1", "stage2", "stage3"] }
        | Except.error e =>
          { outcome := Except.error e
            spawned := spawned2 ++ ch.2
            callbacksFired := ["stage1", "stage2"] }
      | PipelineMode.compete, none =>
        { outcome := Except.error competeConfigError
          spawned := spawned1
          callbacksFired := ["stage1"] }

/- ===================== two-pass synthesis ===================== -/

/-- A parsed, delimited named section: name and content. -/
abbrev SectionList := List (String × String)

/-- Two-pass synthesis result, from types.ts (TwoPassResult); the combined
output is modelled at section granularity. -/
structure TwoPassResult where
  pass1 : Stage3Result
  pass2 : Stage3Result
  combinedSections : SectionList
  parsedSectionsPass1 : List String
  parsedSectionsPass2 : List String
  usedFallback : Bool
deriving DecidableEq, Repr

/-- Combine the two passes: every Pass 1 section appears, with the Pass 2
expansion when parsed and the Pass 1 outline content otherwise. -/
def combineSections (p1 p2 : SectionList) : SectionList :=
  p1.map (fun s =>
    match p2.lookup s.1 with
    | some c => (s.1, c)
    | none => s)

/-- Modelled from the spec: the two-pass combination logic is absent from
the source tree.  Pass 2 failing entirely, or any Pass 1 section missing
from the parsed Pass 2 output, makes the result fall back to the Pass 1
outline content for the missing sections and records that fallback occurred;
the synthesis itself always returns a result. -/
def runTwoPass (pass1 : Stage3Result) (p1 : SectionList)
    (pass2res : Except String (Stage3Result × SectionList)) : TwoPassResult :=
  match pass2res with
  | Except.error _ =>
    { pass1 := pass1
      pass2 := { agent := pass1.agent, response := "" }
      combinedSections := p1
      parsedSectionsPass1 := p1.map (fun s => s.1)
      parsedSectionsPass2 := []
      usedFallback := true }
  | Except.ok (p2out, p2) =>
    { pass1 := pass1
      pass2 := p2out
      combinedSections := combineSections p1 p2
      parsedSectionsPass1 := p1.map (fun s => s.1)
      parsedSectionsPass2 := p2.map (fun s => s.1)
      usedFallback := p1.any (fun s => (p2.lookup s.1).isNone) }

/- ===================== REPL (embedded from src/repl.ts) ===================== -/

/-- Conversation history entry, from types.ts (ConversationEntry). -/
structure ConversationEntry where
  question : String
  stage1 : List Stage1Result
  stage3Response : String
deriving DecidableEq

/-- REPL session state, from types.ts (SessionState). -/
structure SessionState where
  history : List ConversationEntry
  agents : List AgentConfig
  chairman : AgentConfig
  timeoutMs : Option Nat
deriving DecidableEq

/-- Numeric value of a run of decimal digits. -/
def digitsVal (l : List Char) : Option Nat :=
  let ds := l.takeWhile Char.isDigit
  if ds.isEmpty then none
  else some (ds.foldl (fun acc c => acc * 10 + (c.toNat - 48)) 0)

/-- The JavaScript parseInt with radix 10 on a trimmed string: optional
sign, then leading digits; none models NaN. -/
def parseIntTS (s : String) : Option Int :=
  match trimChars s.data with
  | '-' :: rest => (digitsVal rest).map (fun n => -(n : Int))
  | '+' :: rest => (digitsVal rest).map (fun n => (n : Int))
  | t => (digitsVal t).map (fun n => (n : Int))

/-- The timeout command branch of handleCommand in src/repl.ts: parse the
first argument as seconds; not-a-number or negative leaves the state
unchanged (only printing usage); zero stores an absent timeout; otherwise
the timeout is stored in milliseconds. -/
def applyTimeoutCommand (state : SessionState) (args : List String) : SessionState :=
  match (args.head?).bind (fun a => parseIntTS a) with
  | none => state
  | some seconds =>
    if seconds < 0 then state
    else { state with timeoutMs := if seconds = 0 then none else some (seconds.toNat * 1000) }

/- ===================== helper lemmas ===================== -/

theorem dedupFirstAux_not_mem_seen (l : List String) :
    ∀ (seen : List String) (y : String), y ∈ dedupFirstAux seen l → y ∉ seen := by
  induction l with
  | nil => intro seen y h; simp [dedupFirstAux] at h
  | cons x xs ih =>
    intro seen y h
    by_cases hx : x ∈ seen
    · rw [dedupFirstAux, if_pos hx] at h
      exact ih seen y h
    · rw [dedupFirstAux, if_neg hx] at h
      rcases List.mem_cons.mp h with rfl | h2
      · exact hx
      · exact fun hy => ih (x :: seen) y h2 (List.mem_cons_of_mem _ hy)

theorem dedupFirstAux_nodup (l : List String) : ∀ seen, (dedupFirstAux seen l).Nodup := by
  induction l with
  | nil => intro seen; simp [dedupFirstAux]
  | cons x xs ih =>
    intro seen
    by_cases hx : x ∈ seen
    · rw [dedupFirstAux, if_pos hx]
      exact ih seen
    · rw [dedupFirstAux, if_neg hx]
      refine List.nodup_cons.mpr ⟨?_, ih (x :: seen)⟩
      intro hmem
      exact dedupFirstAux_not_mem_seen xs (x :: seen) x hmem (List.mem_cons_self x seen)

theorem dedupFirst_nodup (l : List String) : (dedupFirst l).Nodup :=
  dedupFirstAux_nodup l []

theorem parseRankingFromText_eq_dedup (text : String) :
    ∃ l, parseRankingFromText text = dedupFirst l := by
  unfold parseRankingFromText
  cases hm : afterMarker text.data with
  | none => exact ⟨_, rfl⟩
  | some tail =>
    dsimp only
    split
    · exact ⟨_, rfl⟩
    · split
      · exact ⟨_, rfl⟩
      · exact ⟨_, rfl⟩

/- ===================== C3: ranking-parse fallback chain ===================== -/

/-- C3: for every input text, parseRankingFromText applies the fallback
chain in priority order — a numbered list immediately after the FINAL
RANKING marker is used when present; otherwise unnumbered anchor lines after
the marker; otherwise a whole-text scan in first-seen order; and when
nothing matches it returns an empty ordered sequence rather than an
error. -/
theorem parseRankingFromText_fallback_chain (text : String) :
    (∀ tail, afterMarker text.data = some tail →
        (numberedTier tail ≠ [] →
          parseRankingFromText text = dedupFirst (numberedTier tail))
      ∧ (numberedTier tail = [] → plainTier tail ≠ [] →
          parseRankingFromText text = dedupFirst (plainTier tail))
      ∧ (numberedTier tail = [] → plainTier tail = [] →
          parseRankingFromText text = dedupFirst (wholeTextTier text.data)))
  ∧ (afterMarker text.data = none →
      parseRankingFromText text = dedupFirst (wholeTextTier text.data))
  ∧ (wholeTextTier text.data = [] →
      (∀ tail, afterMarker text.data = some tail →
        numberedTier tail = [] ∧ plainTier tail = []) →
      parseRankingFromText text = []) := by
  refine ⟨?_, ?_, ?_⟩
  · intro tail hm
    refine ⟨?_, ?_, ?_⟩
    · intro hn
      unfold parseRankingFromText
      rw [hm]
      have hne : (numberedTier tail).isEmpty = false := by
        simpa [List.isEmpty_iff] using hn
      simp [hne]
    · intro hn hp
      unfold parseRankingFromText
      rw [hm]
      have hpe : (plainTier tail).isEmpty = false := by
        simpa [List.isEmpty_iff] using hp
      simp [hn, hpe, dedupFirst, dedupFirstAux]
    · intro hn hp
      unfold parseRankingFromText
      rw [hm]
      simp [hn, hp, dedupFirst, dedupFirstAux]
  · intro hm
    unfold parseRankingFromText
    rw [hm]
  · intro hw hall
    rcases hm : afterMarker text.data with _ | tail
    · unfold parseRankingFromText
      rw [hm, hw]
      rfl
    · rcases hall tail hm with ⟨hn, hp⟩
      unfold parseRankingFromText
      rw [hm]
      simp [hn, hp, hw, dedupFirst, dedupFirstAux]

/-- C3 witness: the concrete input from the spec, the marker followed by a
numbered list ranking B then A, parses to exactly that order. -/
theorem parseRankingFromText_fallback_chain_witness :
    parseRankingFromText "FINAL RANKING:\n1. Response B\n2. Response A"
      = ["Response B", "Response A"] := by
  have h :=
    ((parseRankingFromText_fallback_chain "FINAL RANKING:\n1. Response B\n2. Response A").1
      ("\n1. Response B\n2. Response A".data) (by decide)).1 (by decide)
  rw [h]
  decide

/- ===================== C9: parsed rankings contain no duplicates ===================== -/

/-- C9: for every raw ranking text the parsed ordered label sequence
contains no duplicate labels (dedup by first occurrence), and hence every
Stage2 extraction result carries a duplicate-free parsed ranking. -/
theorem parsedRanking_nodup :
    (∀ text : String, (parseRankingFromText text).Nodup)
  ∧ (∀ states : List AgentState, ∀ res ∈ extractStage2 states, res.parsedRanking.Nodup) := by
  have hmain : ∀ text : String, (parseRankingFromText text).Nodup := by
    intro text
    obtain ⟨l, hl⟩ := parseRankingFromText_eq_dedup text
    rw [hl]
    exact dedupFirst_nodup l
  refine ⟨hmain, ?_⟩
  intro states res hres
  unfold extractStage2 at hres
  rcases List.mem_map.mp hres with ⟨s, _, rfl⟩
  exact hmain _

/-- C9 witness: a ranking text that mentions the same label twice parses to
a duplicate-free list. -/
theorem parsedRanking_nodup_witness :
    (parseRankingFromText
        "FINAL RANKING:\n1. Response A\n2. Response A\n3. Response B").Nodup :=
  (parsedRanking_nodup).1 "FINAL RANKING:\n1. Response A\n2. Response A\n3. Response B"

/- ===================== C4: terminal status classification ===================== -/

/-- C4: callAgent classifies the terminal state — spawn failure gives error
with a message and no exit code; exit code zero gives completed; non-zero
exit gives error with the exit code recorded; a configured timeout elapsing
before exit gives status timeout (distinct from error) and retains the
output chunks captured up to that point. -/
theorem callAgent_classification (st : AgentState) (prompt : String)
    (timeoutMs : Option Nat) (b : ProcBehavior) :
    (∀ msg, b = ProcBehavior.spawnFail msg →
        (callAgent st prompt timeoutMs b).status = AgentStatus.error
      ∧ (callAgent st prompt timeoutMs b).errorMessage = some msg
      ∧ (callAgent st prompt timeoutMs b).exitCode = none)
  ∧ (∀ r, b = ProcBehavior.runs r → ¬ timeoutFires timeoutMs r → r.exitCode = 0 →
        (callAgent st prompt timeoutMs b).status = AgentStatus.completed
      ∧ (callAgent st prompt timeoutMs b).exitCode = some r.exitCode)
  ∧ (∀ r, b = ProcBehavior.runs r → ¬ timeoutFires timeoutMs r → r.exitCode ≠ 0 →
        (callAgent st prompt timeoutMs b).status = AgentStatus.error
      ∧ (callAgent st prompt timeoutMs b).exitCode = some r.exitCode)
  ∧ (∀ r t, b = ProcBehavior.runs r → effectiveTimeout timeoutMs = some t →
        t < r.duration →
        (callAgent st prompt timeoutMs b).status = AgentStatus.timeout
      ∧ (callAgent st prompt timeoutMs b).status ≠ AgentStatus.error
      ∧ (callAgent st prompt timeoutMs b).stdout = st.stdout ++ chunksBefore t r.outChunks
      ∧ (callAgent st prompt timeoutMs b).stderr = st.stderr ++ chunksBefore t r.errChunks) := by
  refine ⟨?_, ?_, ?_, ?_⟩
  · rintro msg rfl
    exact ⟨rfl, rfl, rfl⟩
  · rintro r rfl hnf hzero
    unfold callAgent
    dsimp only
    cases heff : effectiveTimeout timeoutMs with
    | none => simp [onProcClose, hzero]
    | some t =>
      have hle : r.duration ≤ t := by
        by_contra hgt
        exact hnf ⟨t, heff, by omega⟩
      dsimp only
      rw [if_pos hle]
      simp [onProcClose, hzero]
  · rintro r rfl hnf hnzero
    unfold callAgent
    dsimp only
    cases heff : effectiveTimeout timeoutMs with
    | none => simp [onProcClose, hnzero]
    | some t =>
      have hle : r.duration ≤ t := by
        by_contra hgt
        exact hnf ⟨t, heff, by omega⟩
      dsimp only
      rw [if_pos hle]
      simp [onProcClose, hnzero]
  · rintro r t rfl heff hlt
    unfold callAgent
    dsimp only
    rw [heff]
    dsimp only
    rw [if_neg (by omega : ¬ r.duration ≤ t)]
    exact ⟨rfl, by simp, rfl, rfl⟩

/-- C4 witness: a process that cannot be started yields status error with
the message recorded. -/
theorem callAgent_classification_witness :
    (callAgent (initialState { name := "bad", command := ["nonexistent-cmd"], promptViaStdin := false })
        "" none (ProcBehavior.spawnFail "spawn ENOENT")).status = AgentStatus.error
  ∧ (callAgent (initialState { name := "bad", command := ["nonexistent-cmd"], promptViaStdin := false })
        "" none (ProcBehavior.spawnFail "spawn ENOENT")).errorMessage = some "spawn ENOENT" := by
  have h := (callAgent_classification
    (initialState { name := "bad", command := ["nonexistent-cmd"], promptViaStdin := false })
    "" none (ProcBehavior.spawnFail "spawn ENOENT")).1 "spawn ENOENT" rfl
  exact ⟨h.1, h.2.1⟩

/- ===================== C5: killed status never reverts ===================== -/

/-- C5: once an external cancellation has set the status to killed, no
subsequent event — in particular the process-close handling — reverts it,
for every interleaving of the cancel request with process termination. -/
theorem killed_status_persistent :
    (∀ s : AgentState, (applyRunEvent s RunEvent.cancel).status = AgentStatus.killed)
  ∧ (∀ (s : AgentState) (evs : List RunEvent), s.status = AgentStatus.killed →
      (runEvents s evs).status = AgentStatus.killed) := by
  constructor
  · intro s
    rfl
  · intro s evs
    induction evs generalizing s with
    | nil => intro h; exact h
    | cons ev rest ih =>
      intro h
      have hstep : (applyRunEvent s ev).status = AgentStatus.killed := by
        cases ev with
        | cancel => rfl
        | procClose code endT =>
          show (onProcClose s code endT).status = AgentStatus.killed
          rw [onProcClose, if_pos h]
          exact h
      exact ih (applyRunEvent s ev) hstep

/-- C5 witness: a killed record stays killed across a later process-close
event. -/
theorem killed_status_persistent_witness :
    (runEvents
      { config := { name := "kill-test", command := ["sleep", "10"], promptViaStdin := false }
        status := AgentStatus.killed, stdout := [], stderr := [], startTime := some 0
        endTime := some 50, exitCode := none, errorMessage := none, timeoutHandle := none }
      [RunEvent.procClose 0 60]).status = AgentStatus.killed :=
  (killed_status_persistent).2
    { config := { name := "kill-test", command := ["sleep", "10"], promptViaStdin := false }
      status := AgentStatus.killed, stdout := [], stderr := [], startTime := some 0
      endTime := some 50, exitCode := none, errorMessage := none, timeoutHandle := none }
    [RunEvent.procClose 0 60] rfl

/- ===================== C10: timeout zero means unbounded ===================== -/

/-- C10: a timeout value of zero is treated the same as an absent timeout —
callAgent behaves identically, never produces status timeout and installs no
timeout handle — and the REPL timeout command stores zero seconds as an
absent session timeout. -/
theorem timeout_zero_unbounded :
    (∀ (st : AgentState) (prompt : String) (b : ProcBehavior),
        callAgent st prompt (some 0) b = callAgent st prompt none b)
  ∧ (∀ (st : AgentState) (prompt : String) (b : ProcBehavior),
        (callAgent st prompt (some 0) b).status ≠ AgentStatus.timeout
      ∧ (callAgent st prompt (some 0) b).timeoutHandle = none
      ∧ (callAgent st prompt none b).status ≠ AgentStatus.timeout
      ∧ (callAgent st prompt none b).timeoutHandle = none)
  ∧ (∀ state : SessionState, (applyTimeoutCommand state ["0"]).timeoutMs = none) := by
  have heq : ∀ (st : AgentState) (prompt : String) (b : ProcBehavior),
      callAgent st prompt (some 0) b = callAgent st prompt none b := by
    intro st prompt b
    cases b with
    | spawnFail msg => rfl
    | runs r => rfl
  have hnone : ∀ (st : AgentState) (prompt : String) (b : ProcBehavior),
      (callAgent st prompt none b).status ≠ AgentStatus.timeout
      ∧ (callAgent st prompt none b).timeoutHandle = none := by
    intro st prompt b
    cases b with
    | spawnFail msg => exact ⟨by simp [callAgent], rfl⟩
    | runs r =>
      constructor
      · show (onProcClose _ _ _).status ≠ AgentStatus.timeout
        rw [onProcClose]
        split
        · simp_all [callAgent]
        · split <;> simp
      · show (onProcClose _ _ _).timeoutHandle = none
        rw [onProcClose]
        split <;> rfl
  refine ⟨heq, ?_, ?_⟩
  · intro st prompt b
    rw [heq st prompt b]
    exact ⟨(hnone st prompt b).1, (hnone st prompt b).2, (hnone st prompt b).1, (hnone st prompt b).2⟩
  · intro state
    rfl

/-- C10 witness: storing a zero-second timeout through the REPL command
leaves the session timeout absent. -/
theorem timeout_zero_unbounded_witness :
    (applyTimeoutCommand
      { history := [], agents := [], chairman := { name := "gemini", command := ["gemini"], promptViaStdin := true }
        timeoutMs := some 5000 } ["0"]).timeoutMs = none :=
  (timeout_zero_unbounded).2.2
    { history := [], agents := [], chairman := { name := "gemini", command := ["gemini"], promptViaStdin := true }
      timeoutMs := some 5000 }

/- ===================== C1: aggregate ranking correctness ===================== -/

theorem filter_orderedInsert_key (q : ℚ) (x : AggregateRank) (l : List AggregateRank) :
    (List.orderedInsert aggLe x l).filter (fun e => decide (e.averageRank = q)) =
      if x.averageRank = q then x :: l.filter (fun e => decide (e.averageRank = q))
      else l.filter (fun e => decide (e.averageRank = q)) := by
  induction l with
  | nil =>
    by_cases hxq : x.averageRank = q
    · simp [List.orderedInsert, List.filter, hxq]
    · simp [List.orderedInsert, List.filter, hxq]
  | cons y ys ih =>
    simp only [List.orderedInsert]
    by_cases hxy : aggLe x y
    · rw [if_pos hxy]
      by_cases hxq : x.averageRank = q
      · simp [List.filter_cons, hxq]
      · simp [List.filter_cons, hxq]
    · rw [if_neg hxy]
      have hlt : y.averageRank < x.averageRank :=
        lt_of_not_le (fun hle => hxy hle)
      by_cases hxq : x.averageRank = q
      · have hyq : y.averageRank ≠ q := by
          rw [← hxq]
          exact ne_of_lt hlt
        simp [List.filter_cons, ih, hxq, hyq]
      · simp [List.filter_cons, ih, hxq]

theorem filter_insertionSort_key (q : ℚ) (l : List AggregateRank) :
    (List.insertionSort aggLe l).filter (fun e => decide (e.averageRank = q)) =
      l.filter (fun e => decide (e.averageRank = q)) := by
  induction l with
  | nil => rfl
  | cons x xs ih =>
    simp only [List.insertionSort]
    rw [filter_orderedInsert_key]
    by_cases hxq : x.averageRank = q
    · rw [if_pos hxq, ih]
      simp [List.filter_cons, hxq]
    · rw [if_neg hxq, ih]
      simp [List.filter_cons, hxq]

/-- C1: calculateAggregateRankings returns exactly the agents whose label
appears in at least one parsed ranking — each carrying the average of its
one-based positions over the raters that mention its label and the count of
those raters — sorted ascending by average rank with ties kept in original
label-map order; agents whose label appears in no ranking are excluded. -/
theorem calculateAggregateRankings_spec (stage2 : List Stage2Result)
    (labels : List (String × String)) :
    List.Sorted aggLe (calculateAggregateRankings stage2 labels)
  ∧ (calculateAggregateRankings stage2 labels).Perm (aggregateEntries stage2 labels)
  ∧ (∀ q : ℚ, (calculateAggregateRankings stage2 labels).filter
        (fun e => decide (e.averageRank = q))
      = (aggregateEntries stage2 labels).filter (fun e => decide (e.averageRank = q)))
  ∧ (∀ a : String,
      (∃ e ∈ calculateAggregateRankings stage2 labels, e.agent = a)
        ↔ ∃ p ∈ labels, p.2 = a ∧ ∃ r ∈ stage2, p.1 ∈ r.parsedRanking)
  ∧ (∀ e ∈ calculateAggregateRankings stage2 labels, ∃ p ∈ labels,
        e.agent = p.2
      ∧ (∃ r ∈ stage2, p.1 ∈ r.parsedRanking)
      ∧ e.rankingsCount = (ratersFor p.1 stage2).length
      ∧ e.rankingsCount ≠ 0
      ∧ e.averageRank = (sumPositions p.1 stage2 : ℚ) / ((ratersFor p.1 stage2).length : ℚ)) := by
  have hperm : (calculateAggregateRankings stage2 labels).Perm (aggregateEntries stage2 labels) :=
    List.perm_insertionSort aggLe (aggregateEntries stage2 labels)
  have hmem : ∀ e, e ∈ calculateAggregateRankings stage2 labels
      ↔ e ∈ aggregateEntries stage2 labels := fun e => hperm.mem_iff
  have hentry : ∀ e, e ∈ aggregateEntries stage2 labels
      ↔ ∃ p ∈ labels, (∃ r ∈ stage2, p.1 ∈ r.parsedRanking)
        ∧ e = aggregateFor p.1 p.2 stage2 := by
    intro e
    unfold aggregateEntries
    simp only [List.mem_map, List.mem_filter, decide_eq_true_eq]
    constructor
    · rintro ⟨p, ⟨hp, hx⟩, rfl⟩
      exact ⟨p, hp, hx, rfl⟩
    · rintro ⟨p, hp, hx, rfl⟩
      exact ⟨p, ⟨hp, hx⟩, rfl⟩
  refine ⟨List.sorted_insertionSort aggLe (aggregateEntries stage2 labels), hperm,
    fun q => filter_insertionSort_key q (aggregateEntries stage2 labels), ?_, ?_⟩
  · intro a
    constructor
    · rintro ⟨e, he, rfl⟩
      rcases (hentry e).mp ((hmem e).mp he) with ⟨p, hp, hx, rfl⟩
      exact ⟨p, hp, rfl, hx⟩
    · rintro ⟨p, hp, rfl, hx⟩
      refine ⟨aggregateFor p.1 p.2 stage2, (hmem _).mpr ((hentry _).mpr ⟨p, hp, hx, rfl⟩), rfl⟩
  · intro e he
    rcases (hentry e).mp ((hmem e).mp he) with ⟨p, hp, hx, rfl⟩
    refine ⟨p, hp, rfl, hx, rfl, ?_, rfl⟩
    rcases hx with ⟨r, hr, hlab⟩
    have hrmem : r ∈ ratersFor p.1 stage2 := by
      unfold ratersFor
      exact List.mem_filter.mpr ⟨hr, by simpa using hlab⟩
    unfold aggregateFor
    simp only
    intro hzero
    rw [List.length_eq_zero] at hzero
    rw [hzero] at hrmem
    exact (List.not_mem_nil r) hrmem

/-- C1 witness: with one rater mentioning only label Response A, the agent
mapped to that label appears in the aggregate output, per the membership
characterization applied at a concrete input. -/
theorem calculateAggregateRankings_spec_witness :
    ∃ e ∈ calculateAggregateRankings
        [{ agent := "rater", rankingRaw := "", parsedRanking := ["Response A"] }]
        [("Response A", "claude"), ("Response B", "codex")],
      e.agent = "claude" :=
  ((calculateAggregateRankings_spec
    [{ agent := "rater", rankingRaw := "", parsedRanking := ["Response A"] }]
    [("Response A", "claude"), ("Response B", "codex")]).2.2.2.1 "claude").mpr
    ⟨("Response A", "claude"), by decide, rfl,
      { agent := "rater", rankingRaw := "", parsedRanking := ["Response A"] }, by decide, by decide⟩

/- ===================== C2: stage-1 extraction and abort ===================== -/

theorem countP_not_split {α : Type} (p : α → Bool) (l : List α) :
    l.countP p + l.countP (fun a => !p a) = l.length := by
  induction l with
  | nil => simp
  | cons x xs ih =>
    simp only [List.countP_cons, List.length_cons]
    cases hx : p x <;> simp [hx] <;> omega

/-- C2: with every run record terminal, extraction returns exactly the
results of the completed records — agent name and trimmed concatenated
output of each record with status completed, in input order, and nothing
else — so N minus K results remain for K failed, killed or timed-out
records, and the pipeline aborts with the no-usable-responses outcome
exactly when zero Stage1 results remain (abortIfNoStage1 is true exactly on
the empty result list). -/
theorem extractStage1_spec (states : List AgentState)
    (hterm : ∀ s ∈ states, s.status = AgentStatus.completed ∨ s.status = AgentStatus.error
      ∨ s.status = AgentStatus.killed ∨ s.status = AgentStatus.timeout) :
    extractStage1 states
        = (states.filter (fun s => decide (s.status = AgentStatus.completed))).map
            (fun s => { agent := s.config.name, response := String.mk (trimChars (outputChars s)) })
  ∧ (∀ res, res ∈ extractStage1 states
        ↔ ∃ s ∈ states, s.status = AgentStatus.completed
          ∧ res = { agent := s.config.name, response := String.mk (trimChars (outputChars s)) })
  ∧ ((extractStage1 states).map (fun r => r.agent))
        = ((states.filter (fun s => decide (s.status = AgentStatus.completed))).map
            (fun s => s.config.name))
  ∧ (extractStage1 states).length
        = states.length - states.countP (fun s => decide (s.status = AgentStatus.error
            ∨ s.status = AgentStatus.killed ∨ s.status = AgentStatus.timeout))
  ∧ ((extractStage1 states).map (fun r => r.agent)).Sublist
        (states.map (fun s => s.config.name))
  ∧ (abortIfNoStage1 (extractStage1 states) = true
        ↔ states.length = states.countP (fun s => decide (s.status = AgentStatus.error
            ∨ s.status = AgentStatus.killed ∨ s.status = AgentStatus.timeout)))
  ∧ (∀ cfg question env, ¬ (cfg.mode = PipelineMode.compete ∧ cfg.stage2 = none) →
      ((runEnhancedPipeline cfg question env).outcome = Except.ok none
        ↔ extractStage1 (stage1States cfg question env) = [])) := by
  have hKC : states.countP (fun s => decide (s.status = AgentStatus.error
        ∨ s.status = AgentStatus.killed ∨ s.status = AgentStatus.timeout))
      = states.countP (fun s => !(decide (s.status = AgentStatus.completed))) := by
    refine List.countP_congr ?_
    intro s hs
    rcases hterm s hs with h | h | h | h <;> simp [h]
  have hsplit : states.countP (fun s => decide (s.status = AgentStatus.completed))
      + states.countP (fun s => decide (s.status = AgentStatus.error
          ∨ s.status = AgentStatus.killed ∨ s.status = AgentStatus.timeout))
      = states.length := by
    rw [hKC]
    exact countP_not_split _ states
  have hlen : (extractStage1 states).length
      = states.countP (fun s => decide (s.status = AgentStatus.completed)) := by
    unfold extractStage1
    rw [List.length_map, ← List.countP_eq_length_filter]
  refine ⟨rfl, ?_, ?_, by omega, ?_, ?_, ?_⟩
  · intro res
    unfold extractStage1
    simp only [List.mem_map, List.mem_filter, decide_eq_true_eq]
    constructor
    · rintro ⟨s, ⟨hs, hc⟩, hfe⟩
      exact ⟨s, hs, hc, hfe.symm⟩
    · rintro ⟨s, hs, hc, hfe⟩
      exact ⟨s, ⟨hs, hc⟩, hfe.symm⟩
  · unfold extractStage1
    rw [List.map_map]
    rfl
  · unfold extractStage1
    rw [List.map_map]
    exact (List.filter_sublist states).map (fun s => s.config.name)
  · rw [abortIfNoStage1, List.isEmpty_iff, ← List.length_eq_zero, hlen]
    omega
  · intro cfg question env hvalid
    unfold runEnhancedPipeline
    rw [if_neg hvalid]
    dsimp only
    by_cases habort : abortIfNoStage1 (extractStage1 (stage1States cfg question env)) = true
    · rw [if_pos habort]
      rw [abortIfNoStage1, List.isEmpty_iff] at habort
      simp [habort]
    · rw [if_neg habort]
      rw [abortIfNoStage1, List.isEmpty_iff] at habort
      have hne : ¬ extractStage1 (stage1States cfg question env) = [] := habort
      rcases hm2 : cfg.mode with _ | _
      · rcases hs2 : cfg.stage2 with _ | s2cfg
        · exact absurd ⟨hm2, hs2⟩ hvalid
        · dsimp only
          rcases hch : (runChairman cfg question env).1 with e | r3 <;> simp [hne]
      · dsimp only
        rcases hch : (runChairman cfg question env).1 with e | r3 <;> simp [hne]

/-- C2 witness: three terminal records of which one errored extract to
exactly the two completed records with their trimmed output, in input
order, hence two of three results remain. -/
theorem extractStage1_spec_witness :
    extractStage1
      [{ config := { name := "claude", command := ["claude"], promptViaStdin := true }
         status := AgentStatus.completed, stdout := ["Hello world"], stderr := []
         startTime := none, endTime := none, exitCode := some 0, errorMessage := none
         timeoutHandle := none },
       { config := { name := "codex", command := ["codex"], promptViaStdin := true }
         status := AgentStatus.error, stdout := ["Error output"], stderr := []
         startTime := none, endTime := none, exitCode := some 1, errorMessage := none
         timeoutHandle := none },
       { config := { name := "gemini", command := ["gemini"], promptViaStdin := true }
         status := AgentStatus.completed, stdout := ["Gemini response"], stderr := []
         startTime := none, endTime := none, exitCode := some 0, errorMessage := none
         timeoutHandle := none }]
      = [{ agent := "claude", response := "Hello world" },
         { agent := "gemini", response := "Gemini response" }]
  ∧ (extractStage1
      [{ config := { name := "claude", command := ["claude"], promptViaStdin := true }
         status := AgentStatus.completed, stdout := ["Hello world"], stderr := []
         startTime := none, endTime := none, exitCode := some 0, errorMessage := none
         timeoutHandle := none },
       { config := { name := "codex", command := ["codex"], promptViaStdin := true }
         status := AgentStatus.error, stdout := ["Error output"], stderr := []
         startTime := none, endTime := none, exitCode := some 1, errorMessage := none
         timeoutHandle := none },
       { config := { name := "gemini", command := ["gemini"], promptViaStdin := true }
         status := AgentStatus.completed, stdout := ["Gemini response"], stderr := []
         startTime := none, endTime := none, exitCode := some 0, errorMessage := none
         timeoutHandle := none }]).length
    = 3 - 1 := by
  have h := extractStage1_spec
    [{ config := { name := "claude", command := ["claude"], promptViaStdin := true }
       status := AgentStatus.completed, stdout := ["Hello world"], stderr := []
       startTime := none, endTime := none, exitCode := some 0, errorMessage := none
       timeoutHandle := none },
     { config := { name := "codex", command := ["codex"], promptViaStdin := true }
       status := AgentStatus.error, stdout := ["Error output"], stderr := []
       startTime := none, endTime := none, exitCode := some 1, errorMessage := none
       timeoutHandle := none },
     { config := { name := "gemini", command := ["gemini"], promptViaStdin := true }
       status := AgentStatus.completed, stdout := ["Gemini response"], stderr := []
       startTime := none, endTime := none, exitCode := some 0, errorMessage := none
       timeoutHandle := none }] (by decide)
  constructor
  · rw [h.1]
    decide
  · rw [h.2.2.2.1]
    decide

/- ===================== C6: merge skips stage2, compete runs it ===================== -/

/-- C6: in merge mode the returned Stage2 results and aggregate ranking are
null and the Stage2 callback never fires while the Stage1 and Stage3
callbacks do; in compete mode with a configured evaluator set every returned
result carries non-null Stage2 results and aggregate ranking and the Stage2
callback fires. -/
theorem pipeline_mode_stage2 (cfg : EnhancedPipelineConfig) (question : String)
    (env : PipelineEnv) :
    (cfg.mode = PipelineMode.merge →
        ("stage2" ∉ (runEnhancedPipeline cfg question env).callbacksFired)
      ∧ (∀ r, (runEnhancedPipeline cfg question env).outcome = Except.ok (some r) →
            r.stage2 = none ∧ r.aggregate = none
          ∧ "stage1" ∈ (runEnhancedPipeline cfg question env).callbacksFired
          ∧ "stage3" ∈ (runEnhancedPipeline cfg question env).callbacksFired))
  ∧ (cfg.mode = PipelineMode.compete → ∀ s2cfg, cfg.stage2 = some s2cfg →
      ∀ r, (runEnhancedPipeline cfg question env).outcome = Except.ok (some r) →
        (∃ l, r.stage2 = some l) ∧ (∃ a, r.aggregate = some a)
        ∧ "stage2" ∈ (runEnhancedPipeline cfg question env).callbacksFired) := by
  constructor
  · intro hm
    have hguard : ¬ (cfg.mode = PipelineMode.compete ∧ cfg.stage2 = none) := by
      simp [hm]
    unfold runEnhancedPipeline
    rw [if_neg hguard]
    dsimp only
    by_cases habort : abortIfNoStage1 (extractStage1 (stage1States cfg question env)) = true
    · rw [if_pos habort]
      exact ⟨by dsimp only; decide, fun r hr => by dsimp only at hr; simp at hr⟩
    · rw [if_neg habort, hm]
      dsimp only
      cases hch : (runChairman cfg question env).1 with
      | error e =>
        exact ⟨by dsimp only; decide, fun r hr => by dsimp only at hr; simp at hr⟩
      | ok r3 =>
        refine ⟨by dsimp only; decide, fun r hr => ?_⟩
        dsimp only at hr
        simp only [Except.ok.injEq, Option.some.injEq] at hr
        subst hr
        exact ⟨rfl, rfl, by dsimp only; decide, by dsimp only; decide⟩
  · intro hm s2cfg hs2 r hr
    have hguard : ¬ (cfg.mode = PipelineMode.compete ∧ cfg.stage2 = none) := by
      simp [hs2]
    unfold runEnhancedPipeline at hr
    rw [if_neg hguard] at hr
    dsimp only at hr
    by_cases habort : abortIfNoStage1 (extractStage1 (stage1States cfg question env)) = true
    · rw [if_pos habort] at hr
      simp at hr
    · rw [if_neg habort, hm, hs2] at hr
      dsimp only at hr
      cases hch : (runChairman cfg question env).1 with
      | error e =>
        rw [hch] at hr
        simp at hr
      | ok r3 =>
        rw [hch] at hr
        dsimp only at hr
        simp only [Except.ok.injEq, Option.some.injEq] at hr
        subst hr
        refine ⟨⟨_, rfl⟩, ⟨_, rfl⟩, ?_⟩
        unfold runEnhancedPipeline
        rw [if_neg hguard]
        dsimp only
        rw [if_neg habort, hm, hs2]
        dsimp only
        rw [hch]
        dsimp only
        decide

/-- C6 witness: a merge-mode run at a concrete configuration and environment
never fires the Stage2 callback. -/
theorem pipeline_mode_stage2_witness :
    "stage2" ∉ (runEnhancedPipeline
      { mode := PipelineMode.merge
        stage1 := { agents := [{ name := "claude", command := ["claude"], promptViaStdin := true },
          { name := "codex", command := ["codex"], promptViaStdin := true }] }
        stage1Prompt := none
        stage2 := none
        stage3 := { chairman := { name := "gemini", command := ["gemini"], promptViaStdin := true }, fallback := none }
        timeoutMs := none }
      "Name a color."
      (fun _ _ => ProcBehavior.runs
        { outChunks := [(1, "blue")], errChunks := [], duration := 1, exitCode := 0 })).callbacksFired :=
  ((pipeline_mode_stage2
    { mode := PipelineMode.merge
      stage1 := { agents := [{ name := "claude", command := ["claude"], promptViaStdin := true },
        { name := "codex", command := ["codex"], promptViaStdin := true }] }
      stage1Prompt := none
      stage2 := none
      stage3 := { chairman := { name := "gemini", command := ["gemini"], promptViaStdin := true }, fallback := none }
      timeoutMs := none }
    "Name a color."
    (fun _ _ => ProcBehavior.runs
      { outChunks := [(1, "blue")], errChunks := [], duration := 1, exitCode := 0 })).1 rfl).1

/- ===================== C7: compete without stage2 is a config error ===================== -/

/-- C7: running the pipeline in compete mode with no stage2 configuration
fails with the configuration error, surfaced before any agent process is
spawned, for every question and environment. -/
theorem compete_without_stage2_config_error (cfg : EnhancedPipelineConfig)
    (question : String) (env : PipelineEnv)
    (hmode : cfg.mode = PipelineMode.compete) (hs2 : cfg.stage2 = none) :
    (runEnhancedPipeline cfg question env).outcome = Except.error competeConfigError
  ∧ (runEnhancedPipeline cfg question env).spawned = [] := by
  unfold runEnhancedPipeline
  rw [if_pos ⟨hmode, hs2⟩]
  exact ⟨rfl, rfl⟩

/-- C7 witness: a concrete compete-mode configuration without stage2 yields
the configuration error with no process spawned. -/
theorem compete_without_stage2_config_error_witness :
    (runEnhancedPipeline
      { mode := PipelineMode.compete
        stage1 := { agents := [{ name := "claude", command := ["claude"], promptViaStdin := true }] }
        stage1Prompt := none
        stage2 := none
        stage3 := { chairman := { name := "claude", command := ["claude"], promptViaStdin := true }, fallback := none }
        timeoutMs := some 5000 }
      "Test question"
      (fun _ _ => ProcBehavior.runs
        { outChunks := [(1, "x")], errChunks := [], duration := 1, exitCode := 0 })).outcome
      = Except.error competeConfigError
  ∧ (runEnhancedPipeline
      { mode := PipelineMode.compete
        stage1 := { agents := [{ name := "claude", command := ["claude"], promptViaStdin := true }] }
        stage1Prompt := none
        stage2 := none
        stage3 := { chairman := { name := "claude", command := ["claude"], promptViaStdin := true }, fallback := none }
        timeoutMs := some 5000 }
      "Test question"
      (fun _ _ => ProcBehavior.runs
        { outChunks := [(1, "x")], errChunks := [], duration := 1, exitCode := 0 })).spawned = [] :=
  compete_without_stage2_config_error
    { mode := PipelineMode.compete
      stage1 := { agents := [{ name := "claude", command := ["claude"], promptViaStdin := true }] }
      stage1Prompt := none
      stage2 := none
      stage3 := { chairman := { name := "claude", command := ["claude"], promptViaStdin := true }, fallback := none }
      timeoutMs := some 5000 }
    "Test question"
    (fun _ _ => ProcBehavior.runs
      { outChunks := [(1, "x")], errChunks := [], duration := 1, exitCode := 0 }) rfl rfl

/- ===================== C8: two-pass fallback ===================== -/

/-- C8: whenever Pass 2 fails or its sections cannot be parsed, the combined
result still contains content for every section Pass 1 produced — the Pass 1
outline content for the missing sections — and records usedFallback = true;
the combination is total, so synthesis does not fail merely because the
expansion pass failed. -/
theorem twoPass_fallback (pass1 : Stage3Result) (p1 : SectionList)
    (pass2res : Except String (Stage3Result × SectionList)) :
    (∀ e, pass2res = Except.error e →
        (runTwoPass pass1 p1 pass2res).usedFallback = true
      ∧ (runTwoPass pass1 p1 pass2res).combinedSections = p1)
  ∧ (∀ p2out p2, pass2res = Except.ok (p2out, p2) →
      (∀ s ∈ p1, ∃ c, (s.1, c) ∈ (runTwoPass pass1 p1 pass2res).combinedSections
        ∧ (p2.lookup s.1 = some c ∨ (p2.lookup s.1 = none ∧ c = s.2)))
      ∧ ((∃ s ∈ p1, p2.lookup s.1 = none) →
          (runTwoPass pass1 p1 pass2res).usedFallback = true)) := by
  constructor
  · rintro e rfl
    exact ⟨rfl, rfl⟩
  · rintro p2out p2 rfl
    constructor
    · intro s hs
      have hmem : (match p2.lookup s.1 with
          | some c => (s.1, c)
          | none => s) ∈ combineSections p1 p2 := by
        unfold combineSections
        exact List.mem_map_of_mem _ hs
      cases hl : p2.lookup s.1 with
      | some c =>
        rw [hl] at hmem
        exact ⟨c, hmem, Or.inl rfl⟩
      | none =>
        rw [hl] at hmem
        refine ⟨s.2, ?_, Or.inr ⟨rfl, rfl⟩⟩
        rw [Prod.mk.eta]
        exact hmem
    · rintro ⟨s, hs, hl⟩
      show (p1.any fun s => (p2.lookup s.1).isNone) = true
      rw [List.any_eq_true]
      exact ⟨s, hs, by simp [hl]⟩

/-- C8 witness: with Pass 2 failing outright, the combined result keeps the
Pass 1 section and records that fallback occurred. -/
theorem twoPass_fallback_witness :
    (runTwoPass { agent := "gemini", response := "outline text" }
      [("summary", "short summary"), ("conflicts", "none found")]
      (Except.error "pass2 failed")).usedFallback = true
  ∧ (runTwoPass { agent := "gemini", response := "outline text" }
      [("summary", "short summary"), ("conflicts", "none found")]
      (Except.error "pass2 failed")).combinedSections
      = [("summary", "short summary"), ("conflicts", "none found")] :=
  (twoPass_fallback { agent := "gemini", response := "outline text" }
    [("summary", "short summary"), ("conflicts", "none found")]
    (Except.error "pass2 failed")).1 "pass2 failed" rfl
